import Mathlib

/-!
Verification of the core analytical engines of the `gmb` fantasy-league
analytics repository: the keeper-eligibility engine (`src/gmb/keeper.py`,
`src/gmb/keeper_constants.py`), the OIWP engine and its result validator
(`src/gmb/oiwp.py`), and the schedule-swap simulator of the
schedule-simulation engine.

Conventions of the embedding:
* pandas DataFrames become Lean lists of records; a DataFrame row lookup
  (`df[df[col] == v].iloc[0]`) becomes `List.find?`;
* Python `float` scores and costs become `ℚ` / `Int`;
* code that can raise (`ZeroDivisionError`, `IndexError`) returns `Option`,
  with `none` modelling the raised exception;
* running tallies accumulated by loops are written as the equivalent
  closed-form counts/sums over the same rows.
-/

namespace GMB

/-! ## Keeper constants (`src/gmb/keeper_constants.py`) -/

def MAX_KEEP_YEARS : Nat := 3

def GO_BACK_YEARS : Nat := 3

def MS_IN_DAY : Int := 1000 * 60 * 60 * 24

def DROP_TO_PICKUP : Int := 7 * MS_IN_DAY

/-- The dict `KEEPER_YEAR_INCREMENTS = {1: 5, 2: 10, 3: 15}`. -/
def KEEPER_YEAR_INCREMENTS : Nat → Option Int
  | 1 => some 5
  | 2 => some 10
  | 3 => some 15
  | _ => none

/-- `KEEPER_YEAR_INCREMENTS.get(n, KEEPER_YEAR_INCREMENTS[MAX_KEEP_YEARS])`;
`KEEPER_YEAR_INCREMENTS[MAX_KEEP_YEARS]` is `15`. -/
def keeperIncrement (n : Nat) : Int :=
  (KEEPER_YEAR_INCREMENTS n).getD 15

/-! ## Data model (`src/gmb/models.py`) -/

/-- `TransactionType` enum. -/
inductive TransType where
  | ADD
  | DROP
  | WAIVER
  | TRADE
  | DRAFT
deriving DecidableEq, Repr

/-- One row of a yearly draft DataFrame, restricted to the columns
`analyze_player` reads: `player_name`, `keeper`, `cost`. -/
structure DraftPick where
  player_name : String
  keeper : Bool
  cost : Int
deriving DecidableEq, Repr

/-- One row of a yearly transaction DataFrame, restricted to the columns
`_did_clear_waivers` reads: `player_name`, `type`, `timestamp` (epoch ms). -/
structure Transaction where
  player_name : String
  type : TransType
  timestamp : Int
deriving DecidableEq, Repr

/-- `KeeperEligibility` dataclass (`current_cost` is always an `int` in the
code: either a computed cost or the sentinel `999`). -/
structure KeeperEligibility where
  player_name : String
  team_name : String
  position : String
  years_kept : Nat
  years_remaining : Int
  eligible : Bool
  current_cost : Int
  last_cost : Option Int
  drafted_history : List Bool
  kept_history : List Bool
  cleared_waivers : List Bool
deriving DecidableEq, Repr

/-! ## `KeeperAnalyzer._did_clear_waivers` -/

/-- The scan of `_did_clear_waivers` over transactions sorted newest first:
return `True` at the first `ADD`, or at the first `WAIVER` whose timestamp gap
to the next-older transaction exceeds `DROP_TO_PICKUP`; `False` when the scan
finishes (in particular on an empty list). -/
def didClearWaivers : List Transaction → Bool
  | [] => false
  | [t] => if t.type = TransType.ADD then true else false
  | t :: next :: rest =>
    if t.type = TransType.ADD then true
    else if t.type = TransType.WAIVER ∧ DROP_TO_PICKUP < t.timestamp - next.timestamp then true
    else didClearWaivers (next :: rest)

/-- Stable insertion of a transaction into a list already sorted by
descending timestamp. -/
def insertTransDesc (t : Transaction) : List Transaction → List Transaction
  | [] => [t]
  | u :: rest =>
    if t.timestamp ≤ u.timestamp then u :: insertTransDesc t rest
    else t :: u :: rest

/-- `player_trans.sort_values("timestamp", ascending=False)`. -/
def sortTransDesc : List Transaction → List Transaction
  | [] => []
  | t :: rest => insertTransDesc t (sortTransDesc rest)

/-! ## `KeeperAnalyzer.analyze_player` -/

/-- `draft_df[draft_df["player_name"] == player_name]` followed by `.iloc[0]`. -/
def findPick (year : List DraftPick) (name : String) : Option DraftPick :=
  year.find? (fun p => decide (p.player_name = name))

/-- The `drafted_history` list built from `draft_history` (newest first). -/
def draftedHistory (dh : List (List DraftPick)) (name : String) : List Bool :=
  dh.map (fun y => (findPick y name).isSome)

/-- The `kept_history` list: the `keeper` flag of the player's first draft
pick that year, `False` when undrafted. -/
def keptHistory (dh : List (List DraftPick)) (name : String) : List Bool :=
  dh.map (fun y => match findPick y name with
    | some p => p.keeper
    | none => false)

/-- The `draft_costs` list: the cost of the player's first draft pick that
year, `None` when undrafted. -/
def draftCosts (dh : List (List DraftPick)) (name : String) : List (Option Int) :=
  dh.map (fun y => (findPick y name).map (fun p => p.cost))

/-- The `cleared_waivers` list: per year, `_did_clear_waivers` applied to the
player's transactions sorted newest first. -/
def clearedWaiversHistory (th : List (List Transaction)) (name : String) : List Bool :=
  th.map (fun y =>
    didClearWaivers (sortTransDesc (y.filter (fun t => decide (t.player_name = name)))))

/-- The `years_kept` loop:
`for i in range(n): if kept_history[i] and not cleared_waivers[i]: years_kept += 1 else: break`.
`none` models the `IndexError` raised when a list is accessed past its end
(the short-circuit `and` never touches `cleared_waivers[i]` when
`kept_history[i]` is false). -/
def yearsKeptLoop : Nat → List Bool → List Bool → Option Nat
  | 0, _, _ => some 0
  | _ + 1, [], _ => none
  | n + 1, k :: ks, cleared =>
    if k = false then some 0
    else
      match cleared with
      | [] => none
      | c :: cs =>
        if c = true then some 0
        else (yearsKeptLoop n ks cs).map (fun m => m + 1)

/-- `KeeperAnalyzer.analyze_player`, with the two histories already filtered
to per-year row lists. `none` models an uncaught `IndexError` (histories
shorter than `GO_BACK_YEARS`, or `draft_costs[0]` on an empty draft history). -/
def analyzePlayer (dh : List (List DraftPick)) (th : List (List Transaction))
    (player_name team_name position : String) : Option KeeperEligibility :=
  let drafted := draftedHistory dh player_name
  let kept := keptHistory dh player_name
  let costs := draftCosts dh player_name
  let cleared := clearedWaiversHistory th player_name
  match yearsKeptLoop GO_BACK_YEARS kept cleared with
  | none => none
  | some yk =>
    let years_remaining : Int := (MAX_KEEP_YEARS : Int) - (yk : Int)
    let eligible : Bool := decide (0 < years_remaining)
    match costs with
    | [] => none
    | c0 :: _ =>
      let current_cost : Int :=
        if eligible then c0.getD 0 + keeperIncrement (yk + 1) else 999
      some
        { player_name := player_name
          team_name := team_name
          position := position
          years_kept := yk
          years_remaining := years_remaining
          eligible := eligible
          current_cost := current_cost
          last_cost := c0
          drafted_history := drafted
          kept_history := kept
          cleared_waivers := cleared }

/-- The length of the contiguous newest-first streak of years that are kept
and did not clear waivers. -/
def keptStreak (dh : List (List DraftPick)) (th : List (List Transaction))
    (name : String) : Nat :=
  (((keptHistory dh name).zip (clearedWaiversHistory th name)).takeWhile
    (fun p => p.1 && !p.2)).length

lemma yearsKeptLoop_eq (n : Nat) :
    ∀ (kept cleared : List Bool), n ≤ kept.length → n ≤ cleared.length →
      yearsKeptLoop n kept cleared =
        some (min n (((kept.zip cleared).takeWhile (fun p => p.1 && !p.2)).length)) := by
  induction n with
  | zero => intro kept cleared _ _; simp [yearsKeptLoop]
  | succ n ih =>
    intro kept cleared hk hc
    match kept, cleared with
    | [], _ => simp at hk
    | k :: ks, [] => simp at hc
    | k :: ks, c :: cs =>
      cases k with
      | false => simp [yearsKeptLoop, List.takeWhile_cons]
      | true =>
        cases c with
        | true => simp [yearsKeptLoop, List.takeWhile_cons]
        | false =>
          have ihs := ih ks cs (by simpa using hk) (by simpa using hc)
          simp [yearsKeptLoop, List.takeWhile_cons, ihs]
          omega

lemma keptHistory_length (dh : List (List DraftPick)) (name : String) :
    (keptHistory dh name).length = dh.length := by
  simp [keptHistory]

lemma clearedWaiversHistory_length (th : List (List Transaction)) (name : String) :
    (clearedWaiversHistory th name).length = th.length := by
  simp [clearedWaiversHistory]

lemma takeWhile_len_le {α : Type} (p : α → Bool) (l : List α) :
    (l.takeWhile p).length ≤ l.length := by
  induction l with
  | nil => simp
  | cons a l ih =>
    rw [List.takeWhile_cons]
    by_cases h : p a = true
    · simp [h]; omega
    · simp [h]

lemma keptStreak_le (dh : List (List DraftPick)) (th : List (List Transaction))
    (name : String) (hd : dh.length = GO_BACK_YEARS) (ht : th.length = GO_BACK_YEARS) :
    keptStreak dh th name ≤ GO_BACK_YEARS := by
  have h1 := takeWhile_len_le (fun p : Bool × Bool => p.1 && !p.2)
    ((keptHistory dh name).zip (clearedWaiversHistory th name))
  have h2 : (((keptHistory dh name).zip (clearedWaiversHistory th name))).length
      = GO_BACK_YEARS := by
    simp [List.length_zip, keptHistory_length, clearedWaiversHistory_length, hd, ht]
  unfold keptStreak
  omega

/-- Shape of `analyze_player`'s result for histories of the contractual
`GO_BACK_YEARS` length: no exception, and every field expressed in closed form. -/
lemma analyzePlayer_spec (dh : List (List DraftPick)) (th : List (List Transaction))
    (pn tn pos : String) (hd : dh.length = GO_BACK_YEARS) (ht : th.length = GO_BACK_YEARS) :
    ∃ e, analyzePlayer dh th pn tn pos = some e ∧
      e.years_kept = keptStreak dh th pn ∧
      e.years_remaining = (MAX_KEEP_YEARS : Int) - (e.years_kept : Int) ∧
      e.eligible = decide (0 < e.years_remaining) ∧
      e.last_cost = (draftCosts dh pn).head?.join ∧
      e.current_cost =
        (if e.eligible then e.last_cost.getD 0 + keeperIncrement (e.years_kept + 1) else 999) ∧
      e.kept_history = keptHistory dh pn ∧
      e.cleared_waivers = clearedWaiversHistory th pn := by
  have hkl : (keptHistory dh pn).length = GO_BACK_YEARS := by
    rw [keptHistory_length, hd]
  have hcl : (clearedWaiversHistory th pn).length = GO_BACK_YEARS := by
    rw [clearedWaiversHistory_length, ht]
  have hloop := yearsKeptLoop_eq GO_BACK_YEARS (keptHistory dh pn)
    (clearedWaiversHistory th pn) (by omega) (by omega)
  have hmin : min GO_BACK_YEARS
      ((((keptHistory dh pn).zip (clearedWaiversHistory th pn)).takeWhile
        (fun p => p.1 && !p.2)).length) = keptStreak dh th pn := by
    have := keptStreak_le dh th pn hd ht
    unfold keptStreak at *
    omega
  rw [hmin] at hloop
  have hcosts : ∃ c0 rest, draftCosts dh pn = c0 :: rest := by
    have hlen : (draftCosts dh pn).length = GO_BACK_YEARS := by simp [draftCosts, hd]
    match hdc : draftCosts dh pn with
    | [] => rw [hdc] at hlen; simp [GO_BACK_YEARS] at hlen
    | c0 :: rest => exact ⟨c0, rest, rfl⟩
  obtain ⟨c0, rest, hc0⟩ := hcosts
  refine ⟨{ player_name := pn, team_name := tn, position := pos,
            years_kept := keptStreak dh th pn,
            years_remaining := (MAX_KEEP_YEARS : Int) - (keptStreak dh th pn : Int),
            eligible := decide (0 < (MAX_KEEP_YEARS : Int) - (keptStreak dh th pn : Int)),
            current_cost :=
              if decide (0 < (MAX_KEEP_YEARS : Int) - (keptStreak dh th pn : Int)) then
                c0.getD 0 + keeperIncrement (keptStreak dh th pn + 1)
              else 999,
            last_cost := c0,
            drafted_history := draftedHistory dh pn,
            kept_history := keptHistory dh pn,
            cleared_waivers := clearedWaiversHistory th pn },
    ?_, rfl, rfl, rfl, ?_, rfl, rfl, rfl⟩
  · simp [analyzePlayer, hloop, hc0]
  · simp [hc0]

/-! ## Concrete keeper inputs -/

/-- A draft pick of "Player A" marked as a keeper pick. -/
def exKeptPick : DraftPick := ⟨"Player A", true, 10⟩

/-- A draft pick of "Player A" not marked as a keeper pick. -/
def exNotKeptPick : DraftPick := ⟨"Player A", false, 10⟩

/-- Three years of draft history giving `kept_history = [true, false, true]`. -/
def exDH : List (List DraftPick) := [[exKeptPick], [exNotKeptPick], [exKeptPick]]

/-- Three years with no transactions at all: `cleared_waivers = [false, false, false]`. -/
def exTH : List (List Transaction) := [[], [], []]

/-- C1: `analyze_player` computes `years_kept` as the length of the contiguous
newest-first streak of years where the player was a kept pick and did not
clear waivers; for `kept_history = [true, false, true]` with no waiver clears
it returns `years_kept = 1`. -/
theorem keeper_streak_contiguity (dh : List (List DraftPick))
    (th : List (List Transaction)) (pn tn pos : String)
    (hd : dh.length = GO_BACK_YEARS) (ht : th.length = GO_BACK_YEARS) :
    (∃ e, analyzePlayer dh th pn tn pos = some e ∧
      e.years_kept =
        ((e.kept_history.zip e.cleared_waivers).takeWhile (fun p => p.1 && !p.2)).length) ∧
    (analyzePlayer exDH exTH "Player A" "Team" "QB").map KeeperEligibility.years_kept
      = some 1 := by
  constructor
  · obtain ⟨e, he, h1, _, _, _, _, h6, h7⟩ := analyzePlayer_spec dh th pn tn pos hd ht
    refine ⟨e, he, ?_⟩
    rw [h1, h6, h7]
    rfl
  · decide

theorem keeper_streak_contiguity_witness :
    (∃ e, analyzePlayer exDH exTH "Player A" "Team" "QB" = some e ∧
      e.years_kept =
        ((e.kept_history.zip e.cleared_waivers).takeWhile (fun p => p.1 && !p.2)).length) ∧
    (analyzePlayer exDH exTH "Player A" "Team" "QB").map KeeperEligibility.years_kept
      = some 1 :=
  keeper_streak_contiguity exDH exTH "Player A" "Team" "QB" (by decide) (by decide)

/-- C2: for every analyzed player, `years_remaining = MAX_KEEP_YEARS - years_kept`,
`eligible` holds exactly when `years_remaining > 0`, an ineligible player costs
the sentinel `999`, and an eligible player costs the most recent year's draft
cost (default 0) plus the increment for year `years_kept + 1` from
`{1: +5, 2: +10, 3: +15}`, a year beyond 3 being capped at the year-3 increment. -/
theorem keeper_eligibility_cost (dh : List (List DraftPick))
    (th : List (List Transaction)) (pn tn pos : String)
    (hd : dh.length = GO_BACK_YEARS) (ht : th.length = GO_BACK_YEARS) :
    ∃ e, analyzePlayer dh th pn tn pos = some e ∧
      e.years_remaining = (MAX_KEEP_YEARS : Int) - (e.years_kept : Int) ∧
      (e.eligible = true ↔ 0 < e.years_remaining) ∧
      (e.eligible = false → e.current_cost = 999) ∧
      (e.eligible = true →
        e.current_cost =
          ((draftCosts dh pn).head?.join.getD 0) + keeperIncrement (e.years_kept + 1)) ∧
      keeperIncrement 1 = 5 ∧ keeperIncrement 2 = 10 ∧ keeperIncrement 3 = 15 ∧
      (∀ n, MAX_KEEP_YEARS < n → keeperIncrement n = keeperIncrement MAX_KEEP_YEARS) := by
  obtain ⟨e, he, _, h2, h3, h4, h5, _, _⟩ := analyzePlayer_spec dh th pn tn pos hd ht
  refine ⟨e, he, h2, ?_, ?_, ?_, by decide, by decide, by decide, ?_⟩
  · rw [h3]; simp
  · intro hne; rw [h5, hne]; simp
  · intro hel; rw [h5, hel, h4]; simp
  · intro n hn
    obtain ⟨m, rfl⟩ : ∃ m, n = m + 4 := ⟨n - 4, by unfold MAX_KEEP_YEARS at hn; omega⟩
    rfl

theorem keeper_eligibility_cost_witness :
    ∃ e, analyzePlayer exDH exTH "Player A" "Team" "QB" = some e ∧
      e.years_remaining = (MAX_KEEP_YEARS : Int) - (e.years_kept : Int) ∧
      (e.eligible = true ↔ 0 < e.years_remaining) ∧
      (e.eligible = false → e.current_cost = 999) ∧
      (e.eligible = true →
        e.current_cost =
          ((draftCosts exDH "Player A").head?.join.getD 0) +
            keeperIncrement (e.years_kept + 1)) ∧
      keeperIncrement 1 = 5 ∧ keeperIncrement 2 = 10 ∧ keeperIncrement 3 = 15 ∧
      (∀ n, MAX_KEEP_YEARS < n → keeperIncrement n = keeperIncrement MAX_KEEP_YEARS) :=
  keeper_eligibility_cost exDH exTH "Player A" "Team" "QB" (by decide) (by decide)

/-- A draft pick whose cost 994 makes an eligible first-year keeper cost
`994 + 5 = 999`, colliding with the ineligibility sentinel. -/
def exCostlyPick : DraftPick := ⟨"Player B", false, 994⟩

/-- Draft history holding only the costly pick in the most recent year. -/
def exDHCost : List (List DraftPick) := [[exCostlyPick], [], []]

/-- C10 counterexample: an eligible player with `years_kept = 0` whose computed
cost is the value `999`, so the value 999 is not produced exactly when
`years_kept = 3`. -/
theorem sentinel_collision_counterexample :
    (analyzePlayer exDHCost exTH "Player B" "Team" "RB").map
      (fun e => (e.years_kept, e.current_cost, e.eligible)) = some (0, 999, true) := by
  decide

/-- C10 (amended): for length-`GO_BACK_YEARS` histories of arbitrary contents,
`years_kept` is at most 3, `years_remaining` is never negative, and the
*ineligible* branch — the one that assigns the sentinel cost `999` — is taken
exactly when `years_kept = 3`; the value 999 itself can also arise as a
computed cost of an eligible player. -/
theorem years_kept_bounds (dh : List (List DraftPick))
    (th : List (List Transaction)) (pn tn pos : String)
    (hd : dh.length = GO_BACK_YEARS) (ht : th.length = GO_BACK_YEARS) :
    ∃ e, analyzePlayer dh th pn tn pos = some e ∧
      e.years_kept ≤ MAX_KEEP_YEARS ∧
      0 ≤ e.years_remaining ∧
      (e.eligible = false ↔ e.years_kept = MAX_KEEP_YEARS) ∧
      (e.eligible = false → e.current_cost = 999) := by
  obtain ⟨e, he, h1, h2, h3, _, h5, _, _⟩ := analyzePlayer_spec dh th pn tn pos hd ht
  have hle : e.years_kept ≤ MAX_KEEP_YEARS := by
    rw [h1]
    exact keptStreak_le dh th pn hd ht
  refine ⟨e, he, hle, ?_, ?_, ?_⟩
  · rw [h2]
    unfold MAX_KEEP_YEARS at *
    omega
  · rw [h3, h2]
    unfold MAX_KEEP_YEARS at *
    simp
    omega
  · intro hne; rw [h5, hne]; simp

theorem years_kept_bounds_witness :
    ∃ e, analyzePlayer exDH exTH "Player A" "Team" "QB" = some e ∧
      e.years_kept ≤ MAX_KEEP_YEARS ∧
      0 ≤ e.years_remaining ∧
      (e.eligible = false ↔ e.years_kept = MAX_KEEP_YEARS) ∧
      (e.eligible = false → e.current_cost = 999) :=
  years_kept_bounds exDH exTH "Player A" "Team" "QB" (by decide) (by decide)

/-! ## C5: the waiver-clear condition -/

/-- The waiver-clear condition as the claim states it, reading "the most
relevant transaction" as the most recent one (the head of the newest-first
list): true when the head is a free-agent `ADD`, or when some `WAIVER`
transaction's gap to the next-older transaction exceeds the 7-day window. -/
def specClearedWaivers : List Transaction → Bool
  | [] => false
  | t0 :: rest =>
    decide (t0.type = TransType.ADD) ||
    ((t0 :: rest).zip rest).any
      (fun p => decide (p.1.type = TransType.WAIVER ∧
        DROP_TO_PICKUP < p.1.timestamp - p.2.timestamp))

/-- A newest-first transaction list whose most recent transaction is a WAIVER
with a small gap (100 ms), followed by an older free-agent ADD. -/
def exWaiverThenAdd : List Transaction :=
  [⟨"Player C", TransType.WAIVER, 1000⟩, ⟨"Player C", TransType.ADD, 900⟩]

/-- C5 counterexample: the code returns `True` (it scans past the most
relevant WAIVER and finds the older ADD), while the claim's condition is
false on the same input. -/
theorem waiver_clear_counterexample :
    didClearWaivers exWaiverThenAdd = true ∧
    specClearedWaivers exWaiverThenAdd = false := by
  decide

/-- C5 (amended): `_did_clear_waivers` returns true iff *some* transaction
(at any position of the newest-first list) is a free-agent ADD, or some
WAIVER transaction's timestamp gap to the next-older transaction exceeds the
7-day window; it returns false on an empty transaction list. -/
theorem waiver_clear_amended (ts : List Transaction) :
    (didClearWaivers ts = true ↔
      (∃ t ∈ ts, t.type = TransType.ADD) ∨
      (∃ p ∈ ts.zip ts.tail, p.1.type = TransType.WAIVER ∧
        DROP_TO_PICKUP < p.1.timestamp - p.2.timestamp)) ∧
    didClearWaivers [] = false := by
  refine ⟨?_, rfl⟩
  induction ts with
  | nil => simp [didClearWaivers]
  | cons t rest ih =>
    cases rest with
    | nil =>
      by_cases hA : t.type = TransType.ADD <;>
        simp [didClearWaivers, hA]
    | cons next rs =>
      by_cases hA : t.type = TransType.ADD
      · simp [didClearWaivers, hA]
      · by_cases hW : t.type = TransType.WAIVER ∧
          DROP_TO_PICKUP < t.timestamp - next.timestamp
        · simp [didClearWaivers, hA, hW]
        · rw [show didClearWaivers (t :: next :: rs) = didClearWaivers (next :: rs) by
            simp [didClearWaivers, hA, hW]]
          rw [ih]
          simp only [List.tail_cons, List.zip_cons_cons, List.mem_cons]
          constructor
          · rintro (⟨u, hu, hty⟩ | ⟨p, hp, hpw⟩)
            · exact Or.inl ⟨u, Or.inr hu, hty⟩
            · exact Or.inr ⟨p, Or.inr hp, hpw⟩
          · rintro (⟨u, hu | hu, hty⟩ | ⟨p, hp | hp, hpw⟩)
            · exact absurd (hu ▸ hty) hA
            · exact Or.inl ⟨u, hu, hty⟩
            · subst hp; exact absurd hpw hW
            · exact Or.inr ⟨p, hp, hpw⟩

/-! ## OIWP engine (`src/gmb/oiwp.py`) -/

/-- One row of the matchup ledger: columns `week`, `team_name`, `points`,
`opponent_name`, `opponent_points`. -/
structure Matchup where
  week : Nat
  team_name : String
  points : ℚ
  opponent : String
  opponent_points : ℚ
deriving DecidableEq, Repr

/-- pandas `Series.unique`: distinct values in order of first appearance. -/
def uniqueFirst {α : Type} [DecidableEq α] (l : List α) : List α :=
  l.foldl (fun acc x => if x ∈ acc then acc else acc ++ [x]) []

/-- The `week_scores` dict for a week: one `(team, points)` entry per team,
keeping the team's first row of that week
(`if row["team_name"] not in week_scores`). -/
def weekScores (df : List Matchup) (w : Nat) : List (String × ℚ) :=
  (df.filter (fun r => decide (r.week = w))).foldl
    (fun acc r =>
      if (acc.find? (fun p => decide (p.1 = r.team_name))).isSome then acc
      else acc ++ [(r.team_name, r.points)]) []

/-- The per-week pairwise count:
`sum(1 for other_name, other_score in week_scores.items() if other_name != team_name and team_score > other_score)`. -/
def weekWins (ws : List (String × ℚ)) (t : String) (s : ℚ) : Nat :=
  ws.countP (fun p => decide (p.1 ≠ t ∧ p.2 < s))

/-- `week_scores[t]` as an optional lookup. -/
def lookupScore (ws : List (String × ℚ)) (t : String) : Option ℚ :=
  (ws.find? (fun p => decide (p.1 = t))).map (fun p => p.2)

/-- Total opponent-independent wins accumulated by `add_oiwins` over weeks
`1 .. current_week`; a team absent from a week's scores gains nothing. -/
def oiwinsFor (df : List Matchup) (currentWeek : Nat) (t : String) : Nat :=
  ((List.range' 1 currentWeek).map (fun w =>
    match lookupScore (weekScores df w) t with
    | some s => weekWins (weekScores df w) t s
    | none => 0)).sum

/-- Actual wins tallied from the ledger (`points > opponent_points`). -/
def winsFor (df : List Matchup) (t : String) : Nat :=
  df.countP (fun r => decide (r.team_name = t ∧ r.opponent_points < r.points))

/-- Actual losses tallied from the ledger (`points < opponent_points`). -/
def lossesFor (df : List Matchup) (t : String) : Nat :=
  df.countP (fun r => decide (r.team_name = t ∧ r.points < r.opponent_points))

/-- Python 3 `round`: round half to even. -/
def roundHalfEven (q : ℚ) : Int :=
  let f := Int.floor q
  let frac := q - (f : ℚ)
  if frac < 1/2 then f
  else if 1/2 < frac then f + 1
  else if f % 2 = 0 then f else f + 1

/-- The `TeamOIWP` accumulator object, with the tallies it holds after all
`add_win` / `add_loss` / `add_oiwins` calls. -/
structure TeamOIWP where
  name : String
  wins : Nat
  losses : Nat
  oiwins : Nat
  current_week : Nat
  total_teams : Nat
deriving DecidableEq, Repr

/-- `TeamOIWP.wp = self._wins / self._current_week`: an unguarded division;
`none` models the `ZeroDivisionError` raised when `current_week = 0`. -/
def TeamOIWP.wp (t : TeamOIWP) : Option ℚ :=
  if t.current_week = 0 then none
  else some ((t.wins : ℚ) / (t.current_week : ℚ))

/-- `TeamOIWP.oiwp`: guarded by `total_possible_wins > 0`, else `0.0`. -/
def TeamOIWP.oiwp (t : TeamOIWP) : ℚ :=
  let total_possible : Int := ((t.total_teams : Int) - 1) * (t.current_week : Int)
  if 0 < total_possible then (t.oiwins : ℚ) / (total_possible : ℚ) else 0

/-- `TeamOIWP.luck = self.wp - self.oiwp`: raises whenever `wp` raises. -/
def TeamOIWP.luck (t : TeamOIWP) : Option ℚ :=
  t.wp.map (fun w => w - t.oiwp)

/-- `TeamOIWP.record`: the `"W-L"` string. -/
def TeamOIWP.record (t : TeamOIWP) : String :=
  toString t.wins ++ "-" ++ toString t.losses

/-- `TeamOIWP.predicted_record`: rounds `oiwp * games_played`. -/
def TeamOIWP.predicted_record (t : TeamOIWP) : String :=
  let games_played := t.wins + t.losses
  let predicted_wins := roundHalfEven (t.oiwp * (games_played : ℚ))
  toString predicted_wins ++ "-" ++ toString ((games_played : Int) - predicted_wins)

/-- `TeamOIWP.schedule_wins = wins - round(oiwp * games_played)`. -/
def TeamOIWP.schedule_wins (t : TeamOIWP) : Int :=
  (t.wins : Int) - roundHalfEven (t.oiwp * ((t.wins + t.losses : Nat) : ℚ))

/-- The fully accumulated `team_dict[t]` entry of `calculate_oiwp_stats`. -/
def teamStat (df : List Matchup) (currentWeek totalTeams : Nat) (t : String) : TeamOIWP :=
  { name := t
    wins := winsFor df t
    losses := lossesFor df t
    oiwins := oiwinsFor df currentWeek t
    current_week := currentWeek
    total_teams := totalTeams }

/-- One row of the result DataFrame of `calculate_oiwp_stats`. -/
structure OIWPRow where
  team_name : String
  record : String
  predicted_record : String
  wp : ℚ
  oiwp : ℚ
  luck : ℚ
  schedule_wins : Int
deriving DecidableEq, Repr

/-- A result DataFrame: its column labels and its rows. -/
structure OIWPTable where
  columns : List String
  rows : List OIWPRow
deriving DecidableEq, Repr

/-- Stable insertion into a list sorted by `oiwp` descending. -/
def insertRowDesc (r : OIWPRow) : List OIWPRow → List OIWPRow
  | [] => [r]
  | x :: rest =>
    if r.oiwp ≤ x.oiwp then x :: insertRowDesc r rest
    else r :: x :: rest

/-- `results_df.sort_values("oiwp", ascending=False)`. -/
def sortRowsByOIWPDesc : List OIWPRow → List OIWPRow
  | [] => []
  | r :: rest => insertRowDesc r (sortRowsByOIWPDesc rest)

/-- `calculate_oiwp_stats`. `none` models an uncaught exception (the
`ZeroDivisionError` of `wp` when the maximal scored week is 0); the empty
branch returns `pd.DataFrame(columns=["team_name", "wp", "oiwp", "luck"])`. -/
def calculate_oiwp_stats (df : List Matchup) : Option OIWPTable :=
  let scored := uniqueFirst ((df.filter (fun r => decide (0 < r.points))).map (fun r => r.week))
  if scored.isEmpty then some ⟨["team_name", "wp", "oiwp", "luck"], []⟩
  else
    let currentWeek := scored.foldl max 0
    let teams := uniqueFirst (df.map (fun r => r.team_name))
    let totalTeams := teams.length
    (teams.mapM (fun t =>
      let st := teamStat df currentWeek totalTeams t
      st.wp.map (fun wpv =>
        { team_name := st.name
          record := st.record
          predicted_record := st.predicted_record
          wp := wpv
          oiwp := st.oiwp
          luck := wpv - st.oiwp
          schedule_wins := st.schedule_wins }))).map
      (fun rows =>
        ⟨["team_name", "record", "predicted_record", "wp", "oiwp", "luck", "schedule_wins"],
         sortRowsByOIWPDesc rows⟩)

/-! ## Result validator (`_validate_oiwp_results`) -/

/-- The kinds of data-quality warnings the validator can emit. -/
inductive OIWPWarning where
  | invalid_range (col : String)
  | invalid_luck
  | mean_wp_off
  | mean_oiwp_off
  | luck_sum_off
deriving DecidableEq, Repr

/-- `Series.mean`. -/
def meanOf (l : List ℚ) : ℚ := l.sum / (l.length : ℚ)

/-- `_validate_oiwp_results`: returns the list of warnings emitted, in
emission order; it never raises, and on an empty table returns without
performing any check. -/
def validateOIWPResults (rows : List OIWPRow) : List OIWPWarning :=
  if rows.isEmpty then []
  else
    (if rows.any (fun r => decide (r.wp < 0)) || rows.any (fun r => decide (1 < r.wp)) then
      [OIWPWarning.invalid_range "wp"] else []) ++
    (if rows.any (fun r => decide (r.oiwp < 0)) || rows.any (fun r => decide (1 < r.oiwp)) then
      [OIWPWarning.invalid_range "oiwp"] else []) ++
    (if rows.any (fun r => decide (r.luck < -1)) || rows.any (fun r => decide (1 < r.luck)) then
      [OIWPWarning.invalid_luck] else []) ++
    (if 1/100 < |meanOf (rows.map (fun r => r.wp)) - 1/2| then
      [OIWPWarning.mean_wp_off] else []) ++
    (if 1/100 < |meanOf (rows.map (fun r => r.oiwp)) - 1/2| then
      [OIWPWarning.mean_oiwp_off] else []) ++
    (if (1/100) * (rows.length : ℚ) < |(rows.map (fun r => r.luck)).sum| then
      [OIWPWarning.luck_sum_off] else [])

/-! ## C6: zero current week -/

/-- A `TeamOIWP` with `current_week = 0` (zero games played). -/
def zeroWeekTeam : TeamOIWP := ⟨"Team A", 0, 0, 0, 0, 12⟩

/-- C6 counterexample: with `current_week = 0`, `oiwp` does return its
explicit `0.0` default, but accessing `wp` — and through it `luck` — hits an
unguarded division by zero and raises (modelled by `none`), so not every
derived metric is given a zero default. -/
theorem zero_week_counterexample :
    zeroWeekTeam.wp = none ∧ zeroWeekTeam.luck = none ∧ zeroWeekTeam.oiwp = 0 := by
  constructor
  · rfl
  · constructor
    · rfl
    · rfl

/-- C6 (amended): for a team stat with `current_week = 0`, `oiwp` returns the
explicit default `0.0`, while `wp` and `luck` perform an unguarded division by
`current_week` and raise `ZeroDivisionError` (modelled by `none`). -/
theorem zero_week_behavior (t : TeamOIWP) (h : t.current_week = 0) :
    t.oiwp = 0 ∧ t.wp = none ∧ t.luck = none := by
  refine ⟨?_, ?_, ?_⟩
  · simp [TeamOIWP.oiwp, h]
  · simp [TeamOIWP.wp, h]
  · simp [TeamOIWP.luck, TeamOIWP.wp, h]

theorem zero_week_behavior_witness :
    zeroWeekTeam.oiwp = 0 ∧ zeroWeekTeam.wp = none ∧ zeroWeekTeam.luck = none :=
  zero_week_behavior zeroWeekTeam rfl

/-! ## C7: empty ledger -/

/-- C7: on a ledger in which no record has positive points,
`calculate_oiwp_stats` returns — without raising — the empty table with
columns `team_name, wp, oiwp, luck`; the function is pure, so a second call
on the same input returns the identical empty table. -/
theorem empty_ledger_result (df : List Matchup) (h : ∀ r ∈ df, ¬ 0 < r.points) :
    calculate_oiwp_stats df = some ⟨["team_name", "wp", "oiwp", "luck"], []⟩ ∧
    calculate_oiwp_stats df = calculate_oiwp_stats df := by
  have hf : df.filter (fun r => decide (0 < r.points)) = [] := by
    rw [List.filter_eq_nil_iff]
    intro r hr
    simpa using h r hr
  refine ⟨?_, rfl⟩
  simp [calculate_oiwp_stats, hf, uniqueFirst]

theorem empty_ledger_result_witness :
    calculate_oiwp_stats [] = some ⟨["team_name", "wp", "oiwp", "luck"], []⟩ ∧
    calculate_oiwp_stats [] = calculate_oiwp_stats [] :=
  empty_ledger_result [] (by simp)

/-! ## C3: pairwise counting and the 3-team scenario -/

/-- A single week with three teams scoring A=120, B=100, C=80 (A and B play
each other; C's listed opponent scored 0). -/
def exOIWPDF : List Matchup :=
  [⟨1, "A", 120, "B", 100⟩, ⟨1, "B", 100, "A", 120⟩, ⟨1, "C", 80, "D", 0⟩]

/-- C3: a team's opponent-independent wins for a week count exactly the other
teams of that week whose score is strictly lower (a tied score satisfies
neither `<` and is counted for neither side); on the 3-team, 1-week scenario
A=120, B=100, C=80 the pipeline returns oiwp 1.0 for A, 0.5 for B, 0.0 for C. -/
theorem oiwp_pairwise_counting :
    (∀ (ws : List (String × ℚ)) (t : String) (s : ℚ),
      weekWins ws t s = (ws.filter (fun p => decide (p.1 ≠ t ∧ p.2 < s))).length) ∧
    (calculate_oiwp_stats exOIWPDF).map
      (fun tbl => tbl.rows.map (fun r => (r.team_name, r.oiwp)))
      = some [("A", 1), ("B", 1/2), ("C", 0)] := by
  constructor
  · intro ws t s
    rw [weekWins, List.countP_eq_length_filter]
  · simp +decide [calculate_oiwp_stats, uniqueFirst, exOIWPDF, teamStat,
      TeamOIWP.wp, TeamOIWP.oiwp, TeamOIWP.record, TeamOIWP.predicted_record,
      TeamOIWP.schedule_wins, oiwinsFor, weekScores, weekWins, lookupScore,
      winsFor, lossesFor, roundHalfEven, sortRowsByOIWPDesc, insertRowDesc,
      List.range', List.mapM, List.mapM.loop, List.countP, List.countP.go]
    norm_num

/-! ## C9: weekly pairwise zero-sum -/

lemma sum_map_add_nat {α : Type} (f g : α → Nat) (l : List α) :
    (l.map (fun x => f x + g x)).sum = (l.map f).sum + (l.map g).sum := by
  induction l with
  | nil => simp
  | cons a l ih => simp [ih]; omega

lemma sum_ite_count {α : Type} (p : α → Prop) [DecidablePred p] (l : List α) :
    (l.map (fun x => if p x then 1 else 0)).sum = l.countP (fun x => decide (p x)) := by
  induction l with
  | nil => simp
  | cons a l ih =>
    by_cases h : p a
    · simp [h, ih, List.countP_cons]
      omega
    · simp [h, ih, List.countP_cons]

/-- Pairwise counting is zero-sum: over teams with distinct names and
pairwise-distinct scores, doubling the summed per-week win counts gives
`n * (n - 1)` (each pair contributes exactly one win). -/
lemma weekWins_total (ws : List (String × ℚ))
    (hn : (ws.map Prod.fst).Nodup) (hs : (ws.map Prod.snd).Nodup) :
    2 * (ws.map (fun p => weekWins ws p.1 p.2)).sum = ws.length * (ws.length - 1) := by
  induction ws with
  | nil => simp
  | cons q rest ih =>
    obtain ⟨t, s⟩ := q
    rw [List.map_cons, List.nodup_cons] at hn hs
    obtain ⟨htn, hn'⟩ := hn
    obtain ⟨hsn, hs'⟩ := hs
    have htmem : ∀ p ∈ rest, p.1 ≠ t := by
      intro p hp hpt
      exact htn (List.mem_map.mpr ⟨p, hp, by simp [hpt]⟩)
    have hsmem : ∀ p ∈ rest, p.2 ≠ s := by
      intro p hp hps
      exact hsn (List.mem_map.mpr ⟨p, hp, by simp [hps]⟩)
    have hhead : weekWins ((t, s) :: rest) t s
        = rest.countP (fun p => decide (p.2 < s)) := by
      have h0 : weekWins ((t, s) :: rest) t s
          = rest.countP (fun p => decide (p.1 ≠ t ∧ p.2 < s)) := by
        rw [weekWins, List.countP_cons]
        simp
      rw [h0]
      exact List.countP_congr (fun p hp => by simp [htmem p hp])
    have hstep : ∀ p ∈ rest, weekWins ((t, s) :: rest) p.1 p.2
        = (if s < p.2 then 1 else 0) + weekWins rest p.1 p.2 := by
      intro p hp
      rw [weekWins, weekWins, List.countP_cons]
      have hne : t ≠ p.1 := fun h => htmem p hp h.symm
      by_cases hlt : s < p.2
      · simp [hlt, hne]
        omega
      · simp [hlt, hne]
    have htail : (rest.map (fun p => weekWins ((t, s) :: rest) p.1 p.2)).sum
        = rest.countP (fun p => decide (s < p.2))
          + (rest.map (fun p => weekWins rest p.1 p.2)).sum := by
      rw [List.map_congr_left hstep, sum_map_add_nat, sum_ite_count]
    have hAB : rest.countP (fun p => decide (p.2 < s))
        + rest.countP (fun p => decide (s < p.2)) = rest.length := by
      have hlen := List.length_eq_countP_add_countP
        (fun p : String × ℚ => decide (p.2 < s)) rest
      have hcc : rest.countP (fun p => decide (s < p.2))
          = rest.countP (fun p => decide ¬(decide (p.2 < s) = true)) := by
        refine List.countP_congr (fun p hp => ?_)
        have := hsmem p hp
        simp only [decide_eq_true_eq]
        constructor
        · intro h; simp; linarith
        · intro h
          simp at h
          rcases lt_trichotomy s p.2 with hlt | heq | hgt
          · exact hlt
          · exact absurd heq.symm this
          · exact absurd hgt (by simpa using h)
      rw [hcc]
      omega
    have hrec := ih hn' hs'
    rw [List.map_cons, List.sum_cons, hhead, htail]
    have hgoal : ((t, s) :: rest).length * (((t, s) :: rest).length - 1)
        = 2 * rest.length + rest.length * (rest.length - 1) := by
      rcases rest with _ | ⟨a, l⟩
      · simp
      · simp only [List.length_cons, Nat.add_sub_cancel]
        ring
    rw [hgoal]
    generalize hM : rest.length * (rest.length - 1) = M at hrec ⊢
    omega

/-- The `week_scores` dict has one entry per team name. -/
lemma weekScores_names_nodup (df : List Matchup) (w : Nat) :
    ((weekScores df w).map Prod.fst).Nodup := by
  suffices h : ∀ (l : List Matchup) (acc : List (String × ℚ)),
      (acc.map Prod.fst).Nodup →
      ((l.foldl (fun acc r =>
        if (acc.find? (fun p => decide (p.1 = r.team_name))).isSome then acc
        else acc ++ [(r.team_name, r.points)]) acc).map Prod.fst).Nodup by
    exact h _ [] (by simp)
  intro l
  induction l with
  | nil => intro acc h; simpa
  | cons r l ih =>
    intro acc h
    rw [List.foldl_cons]
    by_cases hf : (acc.find? (fun p => decide (p.1 = r.team_name))).isSome = true
    · rw [if_pos hf]
      exact ih acc h
    · rw [if_neg (by simpa using hf)]
      apply ih
      rw [List.map_append, List.nodup_append]
      refine ⟨h, by simp, ?_⟩
      intro a ha
      simp only [List.map_cons, List.map_nil, List.mem_singleton]
      intro hae
      rw [List.find?_isSome] at hf
      push_neg at hf
      obtain ⟨p, hp, hpe⟩ := List.mem_map.mp ha
      exact hf p hp (by simp [hpe, hae])

/-- C9: in any week whose deduplicated team scores are pairwise distinct, the
per-week opponent-independent win counts summed over the `T` participating
teams equal `T * (T - 1) / 2`. -/
theorem weekly_zero_sum (df : List Matchup) (w : Nat)
    (hs : ((weekScores df w).map Prod.snd).Nodup) :
    ((weekScores df w).map (fun p => weekWins (weekScores df w) p.1 p.2)).sum
      = (weekScores df w).length * ((weekScores df w).length - 1) / 2 := by
  have h2 := weekWins_total (weekScores df w) (weekScores_names_nodup df w) hs
  generalize hm : (weekScores df w).length * ((weekScores df w).length - 1) = m at h2 ⊢
  omega

theorem weekly_zero_sum_witness :
    ((weekScores exOIWPDF 1).map
      (fun p => weekWins (weekScores exOIWPDF 1) p.1 p.2)).sum
      = (weekScores exOIWPDF 1).length * ((weekScores exOIWPDF 1).length - 1) / 2 :=
  weekly_zero_sum exOIWPDF 1 (by decide)

/-! ## C8: validator characterization -/

/-- C8: the validator is a total function (it only collects warnings, never
raises), emits nothing on an empty result table, and emits at least one
warning exactly when some `wp` or `oiwp` leaves `[0, 1]`, some `luck` leaves
`[-1, 1]`, a mean deviates from 0.5 by more than 0.01, or the luck sum
deviates from 0 by more than 0.01 per team. -/
lemma exists_mem_or_split {α : Type} (l : List α) (P Q : α → Prop) :
    ((∃ r ∈ l, P r) ∨ (∃ r ∈ l, Q r)) ↔ (∃ r ∈ l, P r ∨ Q r) := by
  constructor
  · rintro (⟨r, hr, h⟩ | ⟨r, hr, h⟩)
    · exact ⟨r, hr, Or.inl h⟩
    · exact ⟨r, hr, Or.inr h⟩
  · rintro ⟨r, hr, h | h⟩
    · exact Or.inl ⟨r, hr, h⟩
    · exact Or.inr ⟨r, hr, h⟩

theorem validator_warning_iff (rows : List OIWPRow) :
    validateOIWPResults [] = [] ∧
    (validateOIWPResults rows ≠ [] ↔ rows ≠ [] ∧
      ((∃ r ∈ rows, r.wp < 0 ∨ 1 < r.wp) ∨
       (∃ r ∈ rows, r.oiwp < 0 ∨ 1 < r.oiwp) ∨
       (∃ r ∈ rows, r.luck < -1 ∨ 1 < r.luck) ∨
       1/100 < |meanOf (rows.map (fun r => r.wp)) - 1/2| ∨
       1/100 < |meanOf (rows.map (fun r => r.oiwp)) - 1/2| ∨
       (1/100) * (rows.length : ℚ) < |(rows.map (fun r => r.luck)).sum|)) := by
  refine ⟨rfl, ?_⟩
  rcases rows with _ | ⟨r0, rest⟩
  · simp [validateOIWPResults]
  · have hb1 : (((r0 :: rest).any (fun r => decide (r.wp < 0))
        || (r0 :: rest).any (fun r => decide (1 < r.wp))) = true)
        ↔ (∃ r ∈ r0 :: rest, r.wp < 0 ∨ 1 < r.wp) := by
      simp only [Bool.or_eq_true, List.any_eq_true, decide_eq_true_eq]
      exact exists_mem_or_split _ _ _
    have hb2 : (((r0 :: rest).any (fun r => decide (r.oiwp < 0))
        || (r0 :: rest).any (fun r => decide (1 < r.oiwp))) = true)
        ↔ (∃ r ∈ r0 :: rest, r.oiwp < 0 ∨ 1 < r.oiwp) := by
      simp only [Bool.or_eq_true, List.any_eq_true, decide_eq_true_eq]
      exact exists_mem_or_split _ _ _
    have hb3 : (((r0 :: rest).any (fun r => decide (r.luck < -1))
        || (r0 :: rest).any (fun r => decide (1 < r.luck))) = true)
        ↔ (∃ r ∈ r0 :: rest, r.luck < -1 ∨ 1 < r.luck) := by
      simp only [Bool.or_eq_true, List.any_eq_true, decide_eq_true_eq]
      exact exists_mem_or_split _ _ _
    have hnil : validateOIWPResults (r0 :: rest) = [] ↔
        (¬(∃ r ∈ r0 :: rest, r.wp < 0 ∨ 1 < r.wp) ∧
         ¬(∃ r ∈ r0 :: rest, r.oiwp < 0 ∨ 1 < r.oiwp) ∧
         ¬(∃ r ∈ r0 :: rest, r.luck < -1 ∨ 1 < r.luck) ∧
         ¬(1/100 < |meanOf ((r0 :: rest).map (fun r => r.wp)) - 1/2|) ∧
         ¬(1/100 < |meanOf ((r0 :: rest).map (fun r => r.oiwp)) - 1/2|) ∧
         ¬((1/100) * (((r0 :: rest).length : Nat) : ℚ)
            < |((r0 :: rest).map (fun r => r.luck)).sum|)) := by
      rw [validateOIWPResults]
      simp only [List.isEmpty_cons, Bool.false_eq_true, if_false,
        List.append_eq_nil, ite_eq_right_iff, List.cons_ne_nil, imp_false]
      rw [hb1, hb2, hb3]
      tauto
    rw [ne_eq, hnil]
    constructor
    · intro h
      refine ⟨by simp, ?_⟩
      by_contra hc
      exact h ⟨fun c => hc (Or.inl c), fun c => hc (Or.inr (Or.inl c)),
        fun c => hc (Or.inr (Or.inr (Or.inl c))),
        fun c => hc (Or.inr (Or.inr (Or.inr (Or.inl c)))),
        fun c => hc (Or.inr (Or.inr (Or.inr (Or.inr (Or.inl c))))),
        fun c => hc (Or.inr (Or.inr (Or.inr (Or.inr (Or.inr c)))))⟩
    · rintro ⟨-, hdisj⟩ hall
      obtain ⟨n1, n2, n3, n4, n5, n6⟩ := hall
      rcases hdisj with c | c | c | c | c | c
      · exact n1 c
      · exact n2 c
      · exact n3 c
      · exact n4 c
      · exact n5 c
      · exact n6 c

/-! ## C4: schedule-swap simulator -/

/-- Modelled from the spec: one row of the `ScheduleSwapResult` table of
`calculate_schedule_swap_records`, which is referenced from the dashboard but
whose definition is not among the sources; per `(team, schedule_source)`
pair it carries fractional `(wins, losses)` and the `is_actual` flag. -/
structure ScheduleSwapRow where
  team : String
  schedule_source : String
  wins : ℚ
  losses : ℚ
  is_actual : Bool
deriving DecidableEq, Repr

/-- First matchup row of team `t` in week `w`. -/
def findRec (df : List Matchup) (w : Nat) (t : String) : Option Matchup :=
  df.find? (fun r => decide (r.week = w ∧ r.team_name = t))

/-- Win/loss contribution of one weekly comparison; a tie splits `0.5/0.5`. -/
def outcomePair (a b : ℚ) : ℚ × ℚ :=
  if b < a then (1, 0) else if a < b then (0, 1) else (1/2, 1/2)

/-- Componentwise sum of win/loss pairs. -/
def addPair (x y : ℚ × ℚ) : ℚ × ℚ := (x.1 + y.1, x.2 + y.2)

/-- Modelled from the spec: the schedule-swap record of team `x` under team
`y`'s schedule. For each week `y` played, look up the opponent `y` actually
faced and the score that opponent posted, and compare `x`'s own score of that
week against it; weeks with missing data are skipped. -/
def swapRecord (df : List Matchup) (x y : String) : ℚ × ℚ :=
  ((df.filter (fun r => decide (r.team_name = y))).map (fun ry =>
    match findRec df ry.week x, findRec df ry.week ry.opponent with
    | some rx, some ro => outcomePair rx.points ro.points
    | _, _ => ((0 : ℚ), (0 : ℚ)))).foldl addPair (0, 0)

/-- The team's real record read off its own ledger rows, with the same
tie-splitting convention as the simulator. -/
def actualRecord (df : List Matchup) (x : String) : ℚ × ℚ :=
  ((df.filter (fun r => decide (r.team_name = x))).map
    (fun r => outcomePair r.points r.opponent_points)).foldl addPair (0, 0)

/-- Modelled from the spec: the result row for the `(x, y)` pair, flagged
`is_actual` when the schedule source is the team itself. -/
def scheduleSwapRow (df : List Matchup) (x y : String) : ScheduleSwapRow :=
  let wl := swapRecord df x y
  { team := x
    schedule_source := y
    wins := wl.1
    losses := wl.2
    is_actual := decide (x = y) }

/-- The ledger's mirror invariant: every row has the symmetric row of the
opponent's perspective. -/
def MirrorLedger (df : List Matchup) : Prop :=
  ∀ r ∈ df, ∃ m ∈ df, m.week = r.week ∧ m.team_name = r.opponent ∧
    m.points = r.opponent_points

instance (df : List Matchup) : Decidable (MirrorLedger df) := by
  unfold MirrorLedger
  infer_instance

/-- One record per team per week. -/
def OneRowPerTeamWeek (df : List Matchup) : Prop :=
  ∀ r ∈ df, ∀ m ∈ df, r.week = m.week → r.team_name = m.team_name → r = m

instance (df : List Matchup) : Decidable (OneRowPerTeamWeek df) := by
  unfold OneRowPerTeamWeek
  infer_instance

/-- C4: on a ledger satisfying the mirror invariant with one row per team per
week, the schedule-swap row whose schedule source is the team itself
reproduces the team's actual record exactly and is flagged `is_actual`. -/
theorem schedule_swap_identity (df : List Matchup) (x : String)
    (hm : MirrorLedger df) (hu : OneRowPerTeamWeek df) :
    (scheduleSwapRow df x x).wins = (actualRecord df x).1 ∧
    (scheduleSwapRow df x x).losses = (actualRecord df x).2 ∧
    (scheduleSwapRow df x x).is_actual = true := by
  have hrec : swapRecord df x x = actualRecord df x := by
    rw [swapRecord, actualRecord]
    congr 1
    apply List.map_congr_left
    intro ry hry
    have hmem : ry ∈ df := List.mem_of_mem_filter hry
    have hteam : ry.team_name = x := by
      have := List.of_mem_filter hry
      simpa using this
    have hfx : findRec df ry.week x = some ry := by
      rw [findRec]
      rcases hfind : df.find? (fun r => decide (r.week = ry.week ∧ r.team_name = x)) with - | r
      · exfalso
        have h := List.find?_eq_none.mp hfind ry hmem
        simp [hteam] at h
      · have hpred := List.find?_some hfind
        have hrdf := List.mem_of_find?_eq_some hfind
        simp only [decide_eq_true_eq] at hpred
        rw [hfind]
        exact congrArg some (hu r hrdf ry hmem hpred.1 (hpred.2.trans hteam.symm))
    obtain ⟨m, hmdf, hmw, hmt, hmp⟩ := hm ry hmem
    have hfo : ∃ ro, findRec df ry.week ry.opponent = some ro ∧
        ro.points = ry.opponent_points := by
      rw [findRec]
      rcases hfind : df.find? (fun r => decide (r.week = ry.week ∧ r.team_name = ry.opponent))
        with - | ro
      · exfalso
        have h := List.find?_eq_none.mp hfind m hmdf
        simp [hmw, hmt] at h
      · have hpred := List.find?_some hfind
        have hrodf := List.mem_of_find?_eq_some hfind
        simp only [decide_eq_true_eq] at hpred
        have hro : ro = m := hu ro hrodf m hmdf (hpred.1.trans hmw.symm)
          (hpred.2.trans hmt.symm)
        exact ⟨ro, hfind, by rw [hro, hmp]⟩
    obtain ⟨ro, hro, hrop⟩ := hfo
    rw [hfx, hro]
    show outcomePair ry.points ro.points = outcomePair ry.points ry.opponent_points
    rw [hrop]
  exact ⟨by simp [scheduleSwapRow, hrec], by simp [scheduleSwapRow, hrec], by simp [scheduleSwapRow]⟩

/-- A one-week two-team ledger satisfying the mirror invariant. -/
def exSwapDF : List Matchup :=
  [⟨1, "A", 10, "B", 5⟩, ⟨1, "B", 5, "A", 10⟩]

theorem schedule_swap_identity_witness :
    (scheduleSwapRow exSwapDF "A" "A").wins = (actualRecord exSwapDF "A").1 ∧
    (scheduleSwapRow exSwapDF "A" "A").losses = (actualRecord exSwapDF "A").2 ∧
    (scheduleSwapRow exSwapDF "A" "A").is_actual = true :=
  schedule_swap_identity exSwapDF "A" (by decide) (by decide)

end GMB
